import Mathlib

/-!
Verification of the document-processing pipeline of the amplify-template
repository: a shallow embedding, in Lean, of the sidecar manager
(`code/lambda/ingest/shared/sidecar_manager.py`), the ingestion trigger
(`code/lambda/ingest/index.py`), the status poller
(`code/lambda/ingestion-status-checker/index.py`), the upload initiator
(`code/lambda/document-upload/index.py`), the extraction worker
(`code/lambda/document-analysis/index.py`) and the status reader
(`code/lambda/document-status/index.py`), together with theorems settling
the specification's claims about them.

Modelling conventions: Python strings that undergo structural manipulation
(S3 keys, AI response text) are embedded as `List Char`; plain status and
message strings as `String`; timestamps as natural numbers; `boto3` calls
(S3, DynamoDB, Bedrock) as explicit effect traces or oracle parameters;
Python exceptions as `Except`.
-/

/-- Characters of a string literal, for `List Char` keys. -/
def chars (s : String) : List Char := s.data

namespace SidecarManager

/-- The values of `SidecarManager.SIDECAR_TYPES`, in Python dict
(insertion) order. -/
def SIDECAR_TYPES : List (String × List Char) :=
  [ ("metadata", chars ".metadata.json")
  , ("extracted", chars ".extracted.json")
  , ("processing", chars ".processing.json")
  , ("insights", chars ".insights.json")
  , ("audit", chars ".audit.json") ]

/-- The five sidecar suffixes, in `SIDECAR_TYPES` order. -/
def sidecarSuffixes : List (List Char) := SIDECAR_TYPES.map (·.2)

/-- Embedding of `SidecarManager.get_sidecar_key`: appends the suffix of the
given sidecar type; `none` models the `ValueError` for an unknown type. -/
def get_sidecar_key (document_s3_key : List Char) (sidecar_type : String) :
    Option (List Char) :=
  match SIDECAR_TYPES.lookup sidecar_type with
  | some suffix => some (document_s3_key ++ suffix)
  | none => none

/-- Embedding of `SidecarManager.is_sidecar_file`: does the key end with one
of the five sidecar suffixes. -/
def is_sidecar_file (s3_key : List Char) : Bool :=
  sidecarSuffixes.any (fun suffix => suffix.isSuffixOf s3_key)

/-- Embedding of `SidecarManager.get_document_from_sidecar_key`: strips the
first matching suffix (iteration in dict order); `none` models the Python
`None` returned for a non-sidecar key. -/
def get_document_from_sidecar_key (sidecar_s3_key : List Char) :
    Option (List Char) :=
  match sidecarSuffixes.find? (fun suffix => suffix.isSuffixOf sidecar_s3_key) with
  | some suffix => some (sidecar_s3_key.take (sidecar_s3_key.length - suffix.length))
  | none => none

/-- One entry of a processing sidecar's `statusChain`. -/
structure StatusEntry where
  status : String
  timestamp : Nat
  details : String
deriving DecidableEq, Repr

/-- One entry of a processing sidecar's `errors` list: the timestamp merged
with the caller-supplied `error_info` dictionary (modelled as an association
list). -/
structure ErrorEntry where
  timestamp : Nat
  info : List (String × String)
deriving DecidableEq, Repr

/-- The processing sidecar document. -/
structure ProcessingSidecar where
  statusChain : List StatusEntry
  currentStatus : String
  errors : List ErrorEntry
deriving DecidableEq, Repr

/-- The default processing sidecar used by `append_processing_status` when
no sidecar exists yet. -/
def emptyProcessing : ProcessingSidecar :=
  { statusChain := [], currentStatus := "pending", errors := [] }

/-- Embedding of `SidecarManager.append_processing_status` as a pure state
transform: the read sidecar (or the default when absent) gets one entry
appended to `statusChain`, `currentStatus` set to the new status, and the
optional `error_info` appended to `errors`; the result is what
`write_sidecar` stores back. -/
def append_processing_status (prior : Option ProcessingSidecar)
    (status : String) (details : String) (now : Nat)
    (error_info : Option (List (String × String))) : ProcessingSidecar :=
  let p := prior.getD emptyProcessing
  let p := { p with
    statusChain := p.statusChain ++ [⟨status, now, details⟩],
    currentStatus := status }
  match error_info with
  | some info => { p with errors := p.errors ++ [⟨now, info⟩] }
  | none => p

end SidecarManager

namespace StatusChecker

/-- Status of a Bedrock ingestion job as reported by `get_ingestion_job`;
`failureReasons` is optional in the response, mirrored by the `Option`. -/
inductive JobStatus where
  | STARTING
  | IN_PROGRESS
  | COMPLETE
  | FAILED (failureReasons : Option (List String))
deriving DecidableEq, Repr

/-- The fields of a DynamoDB DocumentRecord that the status checker reads
and writes. ISO timestamps are modelled as natural numbers (seconds). -/
structure DocRecord where
  userId : String
  documentId : String
  currentStatus : String
  ingestionJobId : Option String
  indexingDelayUntil : Option Nat
  errorMessage : Option String
  updatedAt : Nat
deriving DecidableEq, Repr

/-- Embedding of the per-document body of
`ingestion-status-checker/index.py` `lambda_handler` (lines 45-117): given
the current time, a polled record and the ingestion-job status fetched for
it, the updated record. A record without `ingestionJobId` is skipped; on
`COMPLETE` the first observation sets `indexing_wait` with a deadline 15
seconds ahead, a later observation past the deadline sets
`ingestion_complete` and removes the deadline; on `FAILED` the failure
reasons (default `["Unknown error"]`) are joined with `", "` into
`errorMessage`; `STARTING` and `IN_PROGRESS` leave the record unchanged. -/
def checkDocument (now : Nat) (doc : DocRecord) (job : JobStatus) : DocRecord :=
  if doc.ingestionJobId.isNone then doc
  else
    match job with
    | .COMPLETE =>
      if doc.currentStatus = "ingestion_in_progress" then
        { doc with currentStatus := "indexing_wait",
                   indexingDelayUntil := some (now + 15),
                   updatedAt := now }
      else if doc.currentStatus = "indexing_wait" ∧ doc.indexingDelayUntil.isSome then
        match doc.indexingDelayUntil with
        | some delay =>
          if delay ≤ now then
            { doc with currentStatus := "ingestion_complete",
                       indexingDelayUntil := none,
                       updatedAt := now }
          else doc
        | none => doc
      else doc
    | .FAILED reasons =>
      { doc with currentStatus := "error",
                 errorMessage := some (String.intercalate ", "
                   (reasons.getD ["Unknown error"])),
                 updatedAt := now }
    | _ => doc

end StatusChecker

/-- Python `str.split(sep)` semantics on character lists: empty pieces are
kept, and splitting the empty string yields one empty piece. -/
def splitOnChar (sep : Char) : List Char → List (List Char)
  | [] => [[]]
  | c :: cs =>
    match splitOnChar sep cs with
    | [] => [[]]
    | r :: rs => if c = sep then [] :: r :: rs else (c :: r) :: rs

namespace Ingest

/-- Embedding of `extract_user_id_from_s3_key` (ingest/index.py lines
44-49): the second `/`-separated component when the key starts with
`users`, else `None`. -/
def extract_user_id_from_s3_key (s3_key : List Char) : Option (List Char) :=
  let parts := splitOnChar '/' s3_key
  if 2 ≤ parts.length ∧ parts.headD [] = chars "users" then some (parts.getD 1 [])
  else none

/-- Embedding of `extract_document_id_from_s3_key` (ingest/index.py lines
52-68): from the filename component, rebuild the UUID from the first five
`-`-separated parts; with fewer parts take everything before the last `-`;
with no `-` take everything before the first `.`. -/
def extract_document_id_from_s3_key (s3_key : List Char) : List Char :=
  let filename := (splitOnChar '/' s3_key).getLastD []
  if filename.contains '-' then
    let parts := splitOnChar '-' filename
    if 5 ≤ parts.length then List.intercalate (chars "-") (parts.take 5)
    else List.intercalate (chars "-") parts.dropLast
  else (splitOnChar '.' filename).headD []

/-- One record of a batched S3 creation-notification event. -/
structure S3Record where
  eventName : List Char
  bucket : String
  key : List Char
deriving DecidableEq, Repr

/-- Observable side effects of the ingestion trigger, in program order:
best-effort S3 object tagging, DynamoDB record updates, sidecar appends,
the `start_ingestion_job` call, and the async extraction invocation. -/
inductive Effect where
  | tagObject (key : List Char)
  | dynamoUpdateStatus (userId docId : List Char) (status : String)
      (jobId : Option (List Char))
  | sidecarProcessing (key : List Char) (status : String)
  | sidecarAudit (key : List Char) (action : String)
  | startJobCall
  | invokeAnalysis (key : List Char)
deriving DecidableEq, Repr

/-- Response of the ingest `lambda_handler`: the success payload with the
started jobs, or the error payload produced by the top-level `except`. -/
inductive IngestResponse where
  | success (jobs : List (List Char))
  | failure (error : String)
deriving DecidableEq, Repr

/-- Outcome of a batch: the handler response, the trace of side effects
that occurred, and the number of `start_ingestion_job` calls attempted. -/
structure BatchResult where
  response : IngestResponse
  effects : List Effect
  calls : Nat
deriving DecidableEq, Repr

/-- Embedding of `process_s3_record` (ingest/index.py lines 170-235).
`env n` is the result of the `n`-th `start_ingestion_job` call of the
invocation (`.error` models the call raising); every other AWS call in
this function is wrapped in its own try/except in the source and is
modelled as succeeding. Returns the job id (`none` for skipped records),
the effects performed, and the next call index; an uncaught exception is
an `Except.error` carrying the message, the effects performed before the
raise, and the call index after it. -/
def processS3Record (env : Nat → Except String (List Char)) (n : Nat)
    (rec : S3Record) :
    Except (String × List Effect × Nat) (Option (List Char) × List Effect × Nat) :=
  if ¬ (chars "ObjectCreated").isPrefixOf rec.eventName then .ok (none, [], n)
  else if SidecarManager.is_sidecar_file rec.key then .ok (none, [], n)
  else
    let user_id := match extract_user_id_from_s3_key rec.key with
      | some u => if u.isEmpty then none else some u
      | none => none
    let docId := extract_document_id_from_s3_key rec.key
    let eff0 :=
      (match user_id with
        | some u => [Effect.tagObject rec.key,
                     Effect.dynamoUpdateStatus u docId "upload_complete" none]
        | none => []) ++
      [Effect.sidecarProcessing rec.key "ingestion_started"] ++
      (match user_id with
        | some _ => [Effect.sidecarAudit rec.key "ingestion_started"]
        | none => []) ++
      [Effect.startJobCall]
    match env n with
    | .error msg => .error (msg, eff0, n + 1)
    | .ok jobId =>
      let eff1 := eff0 ++
        [Effect.sidecarProcessing rec.key "ingestion_in_progress"] ++
        (match user_id with
          | some u => [Effect.dynamoUpdateStatus u docId "ingestion_in_progress"
                        (some jobId)]
          | none => []) ++
        [Effect.invokeAnalysis rec.key]
      .ok (some jobId, eff1, n + 1)

/-- Embedding of the record loop of the ingest `lambda_handler` (lines
249-255): records are processed in order inside one `try`; an exception
from `process_s3_record` propagates to the top-level `except`, which
returns the error payload — the remaining records are not reached. -/
def runRecords (env : Nat → Except String (List Char)) :
    List S3Record → Nat → BatchResult
  | [], n => ⟨.success [], [], n⟩
  | r :: rest, n =>
    match processS3Record env n r with
    | .error (msg, e, n1) => ⟨.failure msg, e, n1⟩
    | .ok (jd, e, n1) =>
      let res := runRecords env rest n1
      { response :=
          match res.response with
          | .success jobs =>
            .success ((match jd with | some j => [j] | none => []) ++ jobs)
          | .failure m => .failure m,
        effects := e ++ res.effects,
        calls := res.calls }

/-- Embedding of the ingest `lambda_handler` over a batch of records. -/
def lambda_handler (env : Nat → Except String (List Char))
    (records : List S3Record) : BatchResult :=
  runRecords env records 0

/-- First concrete batch record used to settle the batch-isolation claim:
a primary document of user `u1`. -/
def recA : S3Record :=
  ⟨chars "ObjectCreated:Put", "docs",
   chars "users/u1/iep/aaaaaaaa-bbbb-cccc-dddd-eeeeeeeeeeee-a.txt"⟩

/-- Second concrete batch record: a primary document of user `u2`, sibling
of `recA` in the same batch. -/
def recB : S3Record :=
  ⟨chars "ObjectCreated:Put", "docs",
   chars "users/u2/iep/11111111-2222-3333-4444-555555555555-b.txt"⟩

/-- Environment in which every `start_ingestion_job` call raises. -/
def badEnv : Nat → Except String (List Char) :=
  fun _ => .error "Service unavailable"

/-- Environment in which every `start_ingestion_job` call succeeds. -/
def goodEnv : Nat → Except String (List Char) :=
  fun _ => .ok (chars "job-1")

end Ingest

namespace Upload

/-- The parsed JSON body of an upload request; absent keys are `none`
(Python `body.get` defaults are applied at the use sites, as in the
source). -/
structure UploadRequest where
  filename : Option String
  documentType : Option String
  contentType : Option String
  fileSize : Option Int
  tags : List String
deriving Repr

/-- Observable side effects of the upload initiator, in program order:
sidecar writes, the DynamoDB `put_item`, and the activity-log write. -/
inductive UploadEffect where
  | writeSidecar (kind : String)
  | putRecord
  | logActivity
deriving DecidableEq, Repr

/-- Response of the upload `lambda_handler`: a 400 rejection with its
error message, or the 200 payload with the allocated id and key. -/
inductive UploadResponse where
  | badRequest (error : String)
  | ok (documentId s3Key : List Char)
deriving DecidableEq, Repr

/-- Classifier for 400 responses. -/
def isBadRequest : UploadResponse → Bool
  | .badRequest _ => true
  | .ok _ _ => false

/-- The hard size ceiling of document-upload/index.py line 159:
`60 * 1024 * 1024` bytes. -/
def max_size : Int := 60 * 1024 * 1024

/-- The closed allowed set of document types (document-upload/index.py
line 171). -/
def valid_types : List String :=
  ["wellness_plan", "fitness_assessment", "health_record", "nutrition_plan", "other"]

/-- Embedding of the storage-key derivation of document-upload/index.py
line 187: `users/{userId}/{documentType}/{documentId}-{filename}`. -/
def upload_s3_key (user_id document_type document_id filename : List Char) :
    List Char :=
  chars "users/" ++ user_id ++ chars "/" ++ document_type ++ chars "/" ++
    document_id ++ chars "-" ++ filename

/-- Embedding of the upload `lambda_handler` (document-upload/index.py
lines 131-317) after authentication: `user_id` comes from the verified
claims, `document_id` is the freshly generated UUID (an external input to
the pure model), `body` is the parsed request body (`none` when missing or
empty). Validation runs before any artifact is created; on success the
three sidecars, the DocumentRecord and the activity-log entry are
written. -/
def lambda_handler (user_id : String) (body : Option UploadRequest)
    (document_id : String) : UploadResponse × List UploadEffect :=
  match body with
  | none => (.badRequest "Request body is required", [])
  | some b =>
    let filename := b.filename.getD ""
    let document_type := b.documentType.getD "other"
    let file_size := b.fileSize.getD 0
    if filename = "" then (.badRequest "filename is required", [])
    else if max_size < file_size then
      (.badRequest "File size exceeds maximum allowed size of 60MB", [])
    else if ¬ valid_types.contains document_type then
      (.badRequest "Invalid documentType", [])
    else
      (.ok (chars document_id)
        (upload_s3_key (chars user_id) (chars document_type)
          (chars document_id) (chars filename)),
       [.writeSidecar "metadata", .writeSidecar "processing",
        .writeSidecar "audit", .putRecord, .logActivity])

end Upload

namespace Analysis

/-- Embedding of the DocumentRecord key derivation inside
`update_document_metadata` (document-analysis/index.py lines 357-358):
the second `/`-component, or `"unknown"` when the key does not start with
`users`. -/
def analysis_user_id (s3_key : List Char) : List Char :=
  let parts := splitOnChar '/' s3_key
  if 2 ≤ parts.length ∧ parts.headD [] = chars "users" then parts.getD 1 []
  else chars "unknown"

/-- Embedding of the documentId derivation inside
`update_document_metadata` (document-analysis/index.py line 359):
`s3_key.split('/')[-1].split('-')[0]`, the filename text before the first
hyphen. -/
def analysis_document_id (s3_key : List Char) : List Char :=
  (splitOnChar '-' ((splitOnChar '/' s3_key).getLastD [])).headD []

end Analysis

namespace DocStatus

/-- One row of the user-facing projection of an internal status. -/
structure StatusInfo where
  status : String
  message : String
  progress : Nat
deriving DecidableEq, Repr

/-- The fixed closed mapping table of document-status/index.py lines
90-121. -/
def status_map : List (String × StatusInfo) :=
  [ ("upload_initiated", ⟨"uploading", "Uploading document...", 10⟩)
  , ("upload_complete", ⟨"processing", "Processing document...", 30⟩)
  , ("ingestion_started", ⟨"ingesting", "Adding to knowledge base...", 50⟩)
  , ("ingestion_in_progress", ⟨"ingesting", "Adding to knowledge base...", 70⟩)
  , ("ingestion_complete",
      ⟨"ready", "Document ready! You can now chat about this document.", 100⟩)
  , ("error", ⟨"error", "Error processing document", 0⟩) ]

/-- The generic fallback of document-status/index.py lines 123-127. -/
def fallback_status : StatusInfo := ⟨"unknown", "Processing...", 50⟩

/-- Embedding of `status_map.get(current_status, fallback)`. -/
def status_info_for (current_status : String) : StatusInfo :=
  (status_map.lookup current_status).getD fallback_status

/-- The status fields of the 200 response body of document-status/index.py
lines 137-145. -/
structure StatusBody where
  documentId : String
  currentStatus : String
  statusMessage : String
  progress : Nat
deriving DecidableEq, Repr

/-- Embedding of the found-record branch of the status `lambda_handler`:
the stored `currentStatus` (default `"unknown"` when absent) projected
through the table. -/
def statusBody (document_id : String) (record_status : Option String) :
    StatusBody :=
  let current_status := record_status.getD "unknown"
  let info := status_info_for current_status
  ⟨document_id, info.status, info.message, info.progress⟩

end DocStatus

namespace Analysis

/-- JSON values, as produced by the Python `json` module: objects keep
member order; numbers keep their literal token. -/
inductive Json where
  | null
  | boolean (b : Bool)
  | num (token : List Char)
  | str (s : List Char)
  | arr (elems : List Json)
  | obj (members : List (List Char × Json))

/-- JSON whitespace accepted by `json.loads`. -/
def isJsonWs (c : Char) : Bool :=
  c = ' ' ∨ c = '\t' ∨ c = '\n' ∨ c = '\r'

/-- Drops leading JSON whitespace. -/
def skipWs : List Char → List Char
  | [] => []
  | c :: cs => if isJsonWs c then skipWs cs else c :: cs

/-- Hexadecimal digit test for `\u` escapes. -/
def isHexDigit (c : Char) : Bool :=
  c.isDigit ∨ ('a' ≤ c ∧ c ≤ 'f') ∨ ('A' ≤ c ∧ c ≤ 'F')

/-- Value of a hexadecimal digit. -/
def hexVal (c : Char) : Nat :=
  if c.isDigit then c.toNat - 48
  else if 'a' ≤ c ∧ c ≤ 'f' then c.toNat - 87
  else c.toNat - 55

/-- Modelled from the JSON grammar of the Python `json` module (an
external library): body of a string literal after the opening quote,
returning the decoded characters and the input after the closing quote.
Escapes and the ban on raw control characters follow RFC 8259 as
`json.loads` enforces it. -/
def parseStringBody : Nat → List Char → Option (List Char × List Char)
  | 0, _ => none
  | Nat.succ fuel, cs =>
    match cs with
    | [] => none
    | '"' :: rest => some ([], rest)
    | '\\' :: rest =>
      let esc : Option (List Char × List Char) :=
        match rest with
        | [] => none
        | e :: r2 =>
          if e = '"' then some (['"'], r2)
          else if e = '\\' then some (['\\'], r2)
          else if e = '/' then some (['/'], r2)
          else if e = 'b' then some (['\x08'], r2)
          else if e = 'f' then some (['\x0C'], r2)
          else if e = 'n' then some (['\n'], r2)
          else if e = 'r' then some (['\r'], r2)
          else if e = 't' then some (['\t'], r2)
          else if e = 'u' then
            match r2 with
            | h1 :: h2 :: h3 :: h4 :: r3 =>
              if isHexDigit h1 ∧ isHexDigit h2 ∧ isHexDigit h3 ∧ isHexDigit h4 then
                some ([Char.ofNat
                  (hexVal h1 * 4096 + hexVal h2 * 256 + hexVal h3 * 16 + hexVal h4)], r3)
              else none
            | _ => none
          else none
      match esc with
      | some (c, r3) =>
        match parseStringBody fuel r3 with
        | some (s, r) => some (c ++ s, r)
        | none => none
      | none => none
    | c :: rest =>
      if c.toNat < 32 then none
      else
        match parseStringBody fuel rest with
        | some (s, r) => some (c :: s, r)
        | none => none

/-- Modelled from the JSON grammar of the Python `json` module: a number
token (optional minus, integer part without leading zeros, optional
fraction, optional exponent), kept as its literal characters. -/
def parseNumber (cs : List Char) : Option (Json × List Char) :=
  let (negTok, cs1) : List Char × List Char :=
    match cs with
    | '-' :: r => (['-'], r)
    | _ => ([], cs)
  match cs1 with
  | [] => none
  | c :: rest =>
    if ¬ c.isDigit then none
    else
      let (intTok, rest1) : List Char × List Char :=
        if c = '0' then (['0'], rest)
        else ((c :: rest).takeWhile Char.isDigit, (c :: rest).dropWhile Char.isDigit)
      let fracRes : Option (List Char × List Char) :=
        match rest1 with
        | '.' :: r =>
          let ds := r.takeWhile Char.isDigit
          if ds.isEmpty then none else some ('.' :: ds, r.dropWhile Char.isDigit)
        | _ => some ([], rest1)
      match fracRes with
      | none => none
      | some (fracTok, rest2) =>
        let expRes : Option (List Char × List Char) :=
          match rest2 with
          | e :: r =>
            if e = 'e' ∨ e = 'E' then
              let (sgnTok, r1) : List Char × List Char :=
                match r with
                | s :: r2 => if s = '+' ∨ s = '-' then ([s], r2) else ([], r)
                | [] => ([], r)
              let ds := r1.takeWhile Char.isDigit
              if ds.isEmpty then none
              else some (e :: (sgnTok ++ ds), r1.dropWhile Char.isDigit)
            else some ([], rest2)
          | [] => some ([], rest2)
        match expRes with
        | none => none
        | some (expTok, rest3) =>
          some (.num (negTok ++ intTok ++ fracTok ++ expTok), rest3)

mutual

/-- Modelled from the JSON grammar of the Python `json` module: one JSON
value, fuel-bounded recursive descent. -/
def parseValue : Nat → List Char → Option (Json × List Char)
  | 0, _ => none
  | Nat.succ fuel, cs =>
    match skipWs cs with
    | [] => none
    | '{' :: rest => parseObj fuel rest
    | '[' :: rest => parseArr fuel rest
    | '"' :: rest =>
      match parseStringBody (rest.length + 1) rest with
      | some (s, r) => some (.str s, r)
      | none => none
    | c :: rest =>
      if c = 't' then
        if (chars "rue").isPrefixOf rest then some (.boolean true, rest.drop 3)
        else none
      else if c = 'f' then
        if (chars "alse").isPrefixOf rest then some (.boolean false, rest.drop 4)
        else none
      else if c = 'n' then
        if (chars "ull").isPrefixOf rest then some (.null, rest.drop 3)
        else none
      else parseNumber (c :: rest)

/-- Object tail after the opening brace. -/
def parseObj : Nat → List Char → Option (Json × List Char)
  | 0, _ => none
  | Nat.succ fuel, cs =>
    match skipWs cs with
    | '}' :: rest => some (.obj [], rest)
    | cs1 => parseMembers fuel cs1 []

/-- Members of an object, one `"key": value` pair per step. -/
def parseMembers : Nat → List Char → List (List Char × Json) →
    Option (Json × List Char)
  | 0, _, _ => none
  | Nat.succ fuel, cs, acc =>
    match cs with
    | '"' :: rest =>
      match parseStringBody (rest.length + 1) rest with
      | some (key, r1) =>
        match skipWs r1 with
        | ':' :: r2 =>
          match parseValue fuel r2 with
          | some (v, r3) =>
            match skipWs r3 with
            | ',' :: r4 => parseMembers fuel (skipWs r4) (acc ++ [(key, v)])
            | '}' :: r4 => some (.obj (acc ++ [(key, v)]), r4)
            | _ => none
          | none => none
        | _ => none
      | none => none
    | _ => none

/-- Array tail after the opening bracket. -/
def parseArr : Nat → List Char → Option (Json × List Char)
  | 0, _ => none
  | Nat.succ fuel, cs =>
    match skipWs cs with
    | ']' :: rest => some (.arr [], rest)
    | cs1 => parseElems fuel cs1 []

/-- Elements of an array, one value per step. -/
def parseElems : Nat → List Char → List Json → Option (Json × List Char)
  | 0, _, _ => none
  | Nat.succ fuel, cs, acc =>
    match parseValue fuel cs with
    | some (v, r1) =>
      match skipWs r1 with
      | ',' :: r2 => parseElems fuel r2 (acc ++ [v])
      | ']' :: r2 => some (.arr (acc ++ [v]), r2)
      | _ => none
    | none => none

end

/-- Modelled from the Python `json.loads` contract: parse one JSON value
with leading and trailing whitespace allowed as the whole input, `none`
for a `JSONDecodeError`. The fuel `2 * length + 4` exceeds any possible
nesting of the input. -/
def jsonLoads (cs : List Char) : Option Json :=
  match parseValue (2 * cs.length + 4) cs with
  | some (v, rest) => if (skipWs rest).isEmpty then some v else none
  | none => none

/-- Embedding of the candidate-region selection of
`invoke_claude_for_extraction` (document-analysis/index.py lines 289-294):
`start_idx = text.find('{')`, `end_idx = text.rfind('}') + 1`, and the
slice `text[start_idx:end_idx]` when `start_idx != -1 and
end_idx > start_idx`. -/
def candidate_region (text : List Char) : Option (List Char) :=
  match text.findIdx? (· = '{'), text.reverse.findIdx? (· = '}') with
  | some si, some rj =>
    let ei := text.length - rj
    if si < ei then some ((text.take ei).drop si) else none
  | _, _ => none

/-- Embedding of the response-parsing tail of
`invoke_claude_for_extraction` (document-analysis/index.py lines 287-303):
parse the candidate region; a `JSONDecodeError` yields
`{raw_response, error: "Invalid JSON"}`; no candidate region yields
`{raw_response, error: "No JSON found"}`. -/
def parseClaudeResponse (extracted_text : List Char) : Json :=
  match candidate_region extracted_text with
  | some json_str =>
    match jsonLoads json_str with
    | some extracted_data => extracted_data
    | none => .obj [(chars "raw_response", .str extracted_text),
                    (chars "error", .str (chars "Invalid JSON"))]
  | none => .obj [(chars "raw_response", .str extracted_text),
                  (chars "error", .str (chars "No JSON found"))]

/-- Embedding of Python `'error' in extracted_data` for the parsed dict. -/
def hasErrorKey : Json → Bool
  | .obj members => members.any (fun kv => kv.1 == chars "error")
  | _ => false

/-- The extracted sidecar document written at document-analysis/index.py
lines 436-443. -/
structure ExtractedSidecar where
  extractionTimestamp : Nat
  extractionModel : String
  confidence : ℚ
  documentType : String
  data : Json

/-- Observable outcome of the analysis handler tail. -/
structure AnalysisOutcome where
  writtenExtracted : Option ExtractedSidecar
  processingAppends : List String
  statusCode : Nat

/-- Embedding of the analysis `lambda_handler` tail (document-analysis/
index.py lines 429-475) from the AI response text onward: parse the
response, compute the fixed confidence (0.85 without an `error` key in
the extracted data, 0.50 with one), write the extracted sidecar, append
`ai_analysis_complete`, and return 200 — there is no failure branch on a
parse miss. -/
def runAnalysisTail (extracted_text : List Char) (document_type : String)
    (now : Nat) (model_id : String) : AnalysisOutcome :=
  let extracted_data := parseClaudeResponse extracted_text
  let confidence : ℚ :=
    if hasErrorKey extracted_data then (50 : ℚ)/100 else (85 : ℚ)/100
  { writtenExtracted :=
      some ⟨now, model_id, confidence, document_type, extracted_data⟩,
    processingAppends := ["ai_analysis_complete"],
    statusCode := 200 }

/-- All contiguous substrings of a character list. -/
def substringsOf (cs : List Char) : List (List Char) :=
  (List.range (cs.length + 1)).flatMap (fun i =>
    (List.range (cs.length + 1)).map (fun j => (cs.take j).drop i))

/-- The claim-level notion used by the specification: the text contains a
parseable JSON object, i.e. some contiguous substring parses as a JSON
object. -/
def containsJsonObject (cs : List Char) : Bool :=
  (substringsOf cs).any (fun s =>
    match jsonLoads s with
    | some (.obj _) => true
    | _ => false)

end Analysis

/-! ## Lemmas and claim theorems -/

namespace SidecarManager

/-! Suffix lemmas used to settle the sidecar classification claim. -/

/-- No sidecar suffix is a suffix of a different sidecar suffix: the five
suffix strings have pairwise distinct stems. -/
lemma suffix_pairwise : ∀ s ∈ sidecarSuffixes, ∀ t ∈ sidecarSuffixes, s ≠ t →
    s.isSuffixOf t = false := by decide

/-- A sidecar suffix never matches at the end of a key formed with a
different sidecar suffix. -/
lemma no_cross_suffix (k : List Char) {s t : List Char}
    (hs : s ∈ sidecarSuffixes) (ht : t ∈ sidecarSuffixes) (hne : s ≠ t) :
    s.isSuffixOf (k ++ t) = false := by
  by_contra h
  have h1 : s <:+ k ++ t := List.isSuffixOf_iff_suffix.mp (by simpa using h)
  have h2 : t <:+ k ++ t := List.suffix_append k t
  rcases List.suffix_or_suffix_of_suffix h1 h2 with hst | hts
  · have := suffix_pairwise s hs t ht hne
    rw [← List.isSuffixOf_iff_suffix] at hst
    simp [this] at hst
  · have := suffix_pairwise t ht s hs (Ne.symm hne)
    rw [← List.isSuffixOf_iff_suffix] at hts
    simp [this] at hts

/-- Membership in the concrete suffix list, unfolded. -/
lemma mem_suffixes_iff {s : List Char} :
    s ∈ sidecarSuffixes ↔ s = chars ".metadata.json" ∨ s = chars ".extracted.json" ∨
      s = chars ".processing.json" ∨ s = chars ".insights.json" ∨ s = chars ".audit.json" := by
  simp [sidecarSuffixes, SIDECAR_TYPES]

/-- The classifier's scan over a key built from suffix `s` finds exactly
`s`, never an earlier suffix in dict order. -/
lemma find?_suffix_eq (k : List Char) {s : List Char} (hs : s ∈ sidecarSuffixes) :
    sidecarSuffixes.find? (fun t => t.isSuffixOf (k ++ s)) = some s := by
  have hpos : s.isSuffixOf (k ++ s) = true :=
    List.isSuffixOf_iff_suffix.mpr (List.suffix_append k s)
  rcases mem_suffixes_iff.mp hs with h | h | h | h | h <;> subst h
  · simp [sidecarSuffixes, SIDECAR_TYPES, List.find?, hpos]
  · have n1 := no_cross_suffix k (s := chars ".metadata.json") (by decide) hs (by decide)
    simp [sidecarSuffixes, SIDECAR_TYPES, List.find?, hpos, n1]
  · have n1 := no_cross_suffix k (s := chars ".metadata.json") (by decide) hs (by decide)
    have n2 := no_cross_suffix k (s := chars ".extracted.json") (by decide) hs (by decide)
    simp [sidecarSuffixes, SIDECAR_TYPES, List.find?, hpos, n1, n2]
  · have n1 := no_cross_suffix k (s := chars ".metadata.json") (by decide) hs (by decide)
    have n2 := no_cross_suffix k (s := chars ".extracted.json") (by decide) hs (by decide)
    have n3 := no_cross_suffix k (s := chars ".processing.json") (by decide) hs (by decide)
    simp [sidecarSuffixes, SIDECAR_TYPES, List.find?, hpos, n1, n2, n3]
  · have n1 := no_cross_suffix k (s := chars ".metadata.json") (by decide) hs (by decide)
    have n2 := no_cross_suffix k (s := chars ".extracted.json") (by decide) hs (by decide)
    have n3 := no_cross_suffix k (s := chars ".processing.json") (by decide) hs (by decide)
    have n4 := no_cross_suffix k (s := chars ".insights.json") (by decide) hs (by decide)
    simp [sidecarSuffixes, SIDECAR_TYPES, List.find?, hpos, n1, n2, n3, n4]

/-- Stripping the found suffix from `k ++ s` recovers `k`. -/
lemma roundtrip_at (k : List Char) {s : List Char} (hs : s ∈ sidecarSuffixes) :
    get_document_from_sidecar_key (k ++ s) = some k := by
  rw [get_document_from_sidecar_key, find?_suffix_eq k hs]
  simp

/-- C1: for every prior processing-sidecar state and every
(status, details, optional error_info) argument, `append_processing_status`
produces a sidecar whose `statusChain` is the previous chain (that of the
default sidecar when none existed) with exactly one new entry appended at
the end — so the previous chain is a prefix and nothing is reordered or
truncated — and whose `currentStatus` equals the status of that last
entry. -/
theorem C1_statusChain_append_only (prior : Option ProcessingSidecar)
    (status details : String) (now : Nat)
    (error_info : Option (List (String × String))) :
    (append_processing_status prior status details now error_info).statusChain =
        (prior.getD emptyProcessing).statusChain ++ [⟨status, now, details⟩] ∧
    (prior.getD emptyProcessing).statusChain <+:
        (append_processing_status prior status details now error_info).statusChain ∧
    (append_processing_status prior status details now error_info).statusChain.getLast? =
        some ⟨status, now, details⟩ ∧
    (append_processing_status prior status details now error_info).currentStatus =
        (⟨status, now, details⟩ : StatusEntry).status := by
  refine ⟨?_, ?_, ?_, ?_⟩ <;>
    cases error_info <;>
    simp [append_processing_status, List.getLast?_concat]

/-- C4: sidecar classification is total and invertible: `is_sidecar_file k`
holds iff `k` ends in one of the five fixed sidecar suffixes, and for every
key `k` and every sidecar kind accepted by `get_sidecar_key`, recovering
the document key from the generated sidecar key gives back `k`. -/
theorem C4_sidecar_classification_total_invertible (k : List Char) :
    (is_sidecar_file k = true ↔
      ((chars ".metadata.json").isSuffixOf k = true ∨
       (chars ".extracted.json").isSuffixOf k = true ∨
       (chars ".processing.json").isSuffixOf k = true ∨
       (chars ".insights.json").isSuffixOf k = true ∨
       (chars ".audit.json").isSuffixOf k = true)) ∧
    (∀ (sidecar_type : String) (sk : List Char),
      get_sidecar_key k sidecar_type = some sk →
      get_document_from_sidecar_key sk = some k) := by
  constructor
  · simp [is_sidecar_file, sidecarSuffixes, SIDECAR_TYPES]
  · intro ty sk hty
    rw [get_sidecar_key] at hty
    rcases hfind : SIDECAR_TYPES.lookup ty with _ | suffix
    · rw [hfind] at hty; exact absurd hty (by simp)
    · rw [hfind] at hty
      have hmem : suffix ∈ sidecarSuffixes := by
        obtain ⟨l₁, l₂, heq, -⟩ := List.lookup_eq_some_iff.mp hfind
        have hm : (ty, suffix) ∈ SIDECAR_TYPES := by rw [heq]; simp
        exact List.mem_map_of_mem (·.2) hm
      cases hty
      exact roundtrip_at k hmem

/-- Witness for C4: the roundtrip of the theorem evaluated at a concrete
document key and the `processing` sidecar kind. -/
theorem C4_witness :
    get_sidecar_key (chars "users/u1/iep/doc.pdf") "processing" =
      some (chars "users/u1/iep/doc.pdf.processing.json") ∧
    get_document_from_sidecar_key (chars "users/u1/iep/doc.pdf.processing.json") =
      some (chars "users/u1/iep/doc.pdf") := by
  refine ⟨by decide, ?_⟩
  exact (C4_sidecar_classification_total_invertible (chars "users/u1/iep/doc.pdf")).2
    "processing" (chars "users/u1/iep/doc.pdf.processing.json") (by decide)

end SidecarManager

namespace StatusChecker

/-- C2: for a polled record whose job reports `COMPLETE`: from
`ingestion_in_progress` the checker moves to `indexing_wait` with a settle
deadline 15 seconds ahead (not to `ingestion_complete`); from
`indexing_wait` with a recorded deadline, a poll strictly before the
deadline changes nothing and a poll at or after it moves to
`ingestion_complete` and removes the deadline; `STARTING` and
`IN_PROGRESS` change nothing. -/
theorem C2_complete_settle_delay (now : Nat) (doc : DocRecord) (j : String)
    (hj : doc.ingestionJobId = some j) :
    (doc.currentStatus = "ingestion_in_progress" →
      checkDocument now doc .COMPLETE =
        { doc with currentStatus := "indexing_wait",
                   indexingDelayUntil := some (now + 15),
                   updatedAt := now } ∧
      (checkDocument now doc .COMPLETE).currentStatus ≠ "ingestion_complete") ∧
    (∀ d, doc.currentStatus = "indexing_wait" → doc.indexingDelayUntil = some d →
      now < d → checkDocument now doc .COMPLETE = doc) ∧
    (∀ d, doc.currentStatus = "indexing_wait" → doc.indexingDelayUntil = some d →
      d ≤ now → checkDocument now doc .COMPLETE =
        { doc with currentStatus := "ingestion_complete",
                   indexingDelayUntil := none,
                   updatedAt := now }) ∧
    checkDocument now doc .STARTING = doc ∧
    checkDocument now doc .IN_PROGRESS = doc := by
  refine ⟨?_, ?_, ?_, ?_, ?_⟩
  · intro h
    constructor <;> simp [checkDocument, hj, h]
  · intro d h hd hlt
    simp [checkDocument, hj, h, hd, Nat.not_le.mpr hlt]
  · intro d h hd hle
    simp [checkDocument, hj, h, hd, hle]
  · simp [checkDocument, hj]
  · simp [checkDocument, hj]

/-- Witness for C2: the three `COMPLETE` behaviours of the theorem at a
concrete record, before and after a concrete deadline. -/
theorem C2_witness :
    (checkDocument 100
      ⟨"u1", "d1", "ingestion_in_progress", some "job-1", none, none, 0⟩ .COMPLETE =
      ⟨"u1", "d1", "indexing_wait", some "job-1", some 115, none, 100⟩) ∧
    (checkDocument 110
      ⟨"u1", "d1", "indexing_wait", some "job-1", some 115, none, 100⟩ .COMPLETE =
      ⟨"u1", "d1", "indexing_wait", some "job-1", some 115, none, 100⟩) ∧
    (checkDocument 115
      ⟨"u1", "d1", "indexing_wait", some "job-1", some 115, none, 100⟩ .COMPLETE =
      ⟨"u1", "d1", "ingestion_complete", some "job-1", none, none, 115⟩) := by
  refine ⟨?_, ?_, ?_⟩
  · exact ((C2_complete_settle_delay 100
      ⟨"u1", "d1", "ingestion_in_progress", some "job-1", none, none, 0⟩
      "job-1" rfl).1 rfl).1
  · exact (C2_complete_settle_delay 110
      ⟨"u1", "d1", "indexing_wait", some "job-1", some 115, none, 100⟩
      "job-1" rfl).2.1 115 rfl rfl (by decide)
  · exact (C2_complete_settle_delay 115
      ⟨"u1", "d1", "indexing_wait", some "job-1", some 115, none, 100⟩
      "job-1" rfl).2.2.1 115 rfl rfl (by decide)

/-- C5: a polled record whose job reports `FAILED` is moved to status
`error`, with the reported failure reasons joined verbatim (separated by
`", "`) into `errorMessage`; for the singleton reasons list
`["quota exceeded"]` the stored `errorMessage` is exactly
`"quota exceeded"`. -/
theorem C5_failed_records_reasons (now : Nat) (doc : DocRecord) (j : String)
    (reasons : List String) (hj : doc.ingestionJobId = some j) :
    checkDocument now doc (.FAILED (some reasons)) =
      { doc with currentStatus := "error",
                 errorMessage := some (String.intercalate ", " reasons),
                 updatedAt := now } ∧
    (checkDocument now doc (.FAILED (some ["quota exceeded"]))).currentStatus =
      "error" ∧
    (checkDocument now doc (.FAILED (some ["quota exceeded"]))).errorMessage =
      some "quota exceeded" := by
  refine ⟨by simp [checkDocument, hj], by simp [checkDocument, hj], ?_⟩
  simp [checkDocument, hj]
  rfl

/-- Witness for C5: the theorem at a concrete record and the reasons list
`["quota exceeded"]`. -/
theorem C5_witness :
    (checkDocument 50
      ⟨"u1", "d1", "ingestion_in_progress", some "job-1", none, none, 0⟩
      (.FAILED (some ["quota exceeded"]))).errorMessage = some "quota exceeded" :=
  (C5_failed_records_reasons 50
    ⟨"u1", "d1", "ingestion_in_progress", some "job-1", none, none, 0⟩
    "job-1" ["quota exceeded"] rfl).2.2

end StatusChecker

namespace Ingest

/-- C3 counterexample: with two primary-document records in one batch and
the external start-ingestion call raising on the first record, the batch
result is identical to the batch without the second record — the sibling
is never processed (one start call attempted, error payload returned) —
whereas the second record alone is processed successfully. -/
theorem C3_counterexample :
    lambda_handler badEnv [recA, recB] = lambda_handler badEnv [recA] ∧
    (lambda_handler badEnv [recA, recB]).calls = 1 ∧
    (lambda_handler badEnv [recA, recB]).response = .failure "Service unavailable" ∧
    (lambda_handler goodEnv [recB]).response = .success [chars "job-1"] := by
  refine ⟨?_, ?_, ?_, ?_⟩ <;> decide

/-- C3 as amended: a failure raised by the external start-ingestion call
while processing one record aborts the whole batch — the handler's
top-level exception handler returns the error payload, and the remaining
sibling records of the batch are not processed (the result does not depend
on them and contains only the effects performed up to the raise). -/
theorem C3_amended_batch_aborts (env : Nat → Except String (List Char))
    (n : Nat) (r : S3Record) (rest : List S3Record) (msg : String)
    (effs : List Effect) (n1 : Nat)
    (h : processS3Record env n r = .error (msg, effs, n1)) :
    runRecords env (r :: rest) n = ⟨.failure msg, effs, n1⟩ := by
  simp [runRecords, h]

/-- Witness for the amended C3: the failing batch of the counterexample,
with the effects performed before the raise spelled out. -/
theorem C3_amended_witness :
    runRecords badEnv [recA, recB] 0 =
      ⟨.failure "Service unavailable",
       [.tagObject recA.key,
        .dynamoUpdateStatus (chars "u1")
          (chars "aaaaaaaa-bbbb-cccc-dddd-eeeeeeeeeeee") "upload_complete" none,
        .sidecarProcessing recA.key "ingestion_started",
        .sidecarAudit recA.key "ingestion_started",
        .startJobCall], 1⟩ :=
  C3_amended_batch_aborts badEnv 0 recA [recB] "Service unavailable" _ 1 rfl

/-- C7: a creation notification whose key ends in one of the five sidecar
suffixes is a no-op for the ingestion trigger: no ingestion job is
started, no sidecar or DocumentRecord update is written, no extraction
invocation happens, and no start call is consumed. -/
theorem C7_sidecar_keys_are_noops (env : Nat → Except String (List Char))
    (n : Nat) (rec : S3Record)
    (hev : (chars "ObjectCreated").isPrefixOf rec.eventName = true)
    (hsc : SidecarManager.is_sidecar_file rec.key = true) :
    processS3Record env n rec = .ok (none, [], n) := by
  simp [processS3Record, hev, hsc]

/-- Witness for C7: a concrete creation event for a processing sidecar
key. -/
theorem C7_witness :
    processS3Record goodEnv 0
      ⟨chars "ObjectCreated:Put", "docs",
       chars "users/u1/iep/doc.pdf.processing.json"⟩ = .ok (none, [], 0) :=
  C7_sidecar_keys_are_noops goodEnv 0
    ⟨chars "ObjectCreated:Put", "docs",
     chars "users/u1/iep/doc.pdf.processing.json"⟩ (by decide) (by decide)

end Ingest

namespace Upload

/-- C6: an upload request whose declared fileSize exceeds the 60 MB hard
ceiling, or whose resolved documentType lies outside the closed allowed
set, is answered with a 400 rejection and performs no side effect: no
sidecar write, no DocumentRecord creation, no activity-log entry. -/
theorem C6_invalid_upload_rejected_no_side_effects
    (user_id document_id : String) (b : UploadRequest)
    (h : max_size < b.fileSize.getD 0 ∨
         valid_types.contains (b.documentType.getD "other") = false) :
    isBadRequest (lambda_handler user_id (some b) document_id).1 = true ∧
    (lambda_handler user_id (some b) document_id).2 = [] := by
  by_cases hf : b.filename.getD "" = ""
  · constructor <;> simp [lambda_handler, hf, isBadRequest]
  · rcases h with h | h
    · constructor <;> simp [lambda_handler, hf, h, isBadRequest]
    · have h2 : ¬(b.documentType.getD "other" ∈ valid_types) := by simpa using h
      by_cases hs : max_size < b.fileSize.getD 0
      · constructor <;> simp [lambda_handler, hf, hs, isBadRequest]
      · constructor <;> simp [lambda_handler, hf, hs, h2, isBadRequest]

/-- Witness for C6: a 61 MB upload request is rejected with no effects. -/
theorem C6_witness :
    isBadRequest (lambda_handler "u1"
      (some ⟨some "big.pdf", some "iep", some "application/pdf",
             some (61 * 1024 * 1024), []⟩) "d1").1 = true ∧
    (lambda_handler "u1"
      (some ⟨some "big.pdf", some "iep", some "application/pdf",
             some (61 * 1024 * 1024), []⟩) "d1").2 = [] :=
  C6_invalid_upload_rejected_no_side_effects "u1" "d1"
    ⟨some "big.pdf", some "iep", some "application/pdf",
     some (61 * 1024 * 1024), []⟩ (.inl (by decide))

end Upload

namespace DocStatus

/-- C9: the status reader projects `currentStatus` through the fixed
closed six-row table, and every value outside the table — including the
`ai_analysis_*` statuses written by the extraction worker — gets the
generic fallback `unknown / "Processing..." / 50`. -/
theorem C9_fixed_table_with_generic_fallback (document_id : String) (s : String)
    (h : s ∉ ["upload_initiated", "upload_complete", "ingestion_started",
              "ingestion_in_progress", "ingestion_complete", "error"]) :
    statusBody document_id (some s) =
      ⟨document_id, "unknown", "Processing...", 50⟩ ∧
    statusBody document_id (some "upload_initiated") =
      ⟨document_id, "uploading", "Uploading document...", 10⟩ ∧
    statusBody document_id (some "upload_complete") =
      ⟨document_id, "processing", "Processing document...", 30⟩ ∧
    statusBody document_id (some "ingestion_started") =
      ⟨document_id, "ingesting", "Adding to knowledge base...", 50⟩ ∧
    statusBody document_id (some "ingestion_in_progress") =
      ⟨document_id, "ingesting", "Adding to knowledge base...", 70⟩ ∧
    statusBody document_id (some "ingestion_complete") =
      ⟨document_id, "ready",
       "Document ready! You can now chat about this document.", 100⟩ ∧
    statusBody document_id (some "error") =
      ⟨document_id, "error", "Error processing document", 0⟩ ∧
    statusBody document_id (some "ai_analysis_started") =
      ⟨document_id, "unknown", "Processing...", 50⟩ ∧
    statusBody document_id (some "ai_analysis_complete") =
      ⟨document_id, "unknown", "Processing...", 50⟩ := by
  obtain ⟨h1, h2, h3, h4, h5, h6⟩ :
      ¬s = "upload_initiated" ∧ ¬s = "upload_complete" ∧
      ¬s = "ingestion_started" ∧ ¬s = "ingestion_in_progress" ∧
      ¬s = "ingestion_complete" ∧ ¬s = "error" := by simpa using h
  have b1 : (s == "upload_initiated") = false := by simp [h1]
  have b2 : (s == "upload_complete") = false := by simp [h2]
  have b3 : (s == "ingestion_started") = false := by simp [h3]
  have b4 : (s == "ingestion_in_progress") = false := by simp [h4]
  have b5 : (s == "ingestion_complete") = false := by simp [h5]
  have b6 : (s == "error") = false := by simp [h6]
  refine ⟨?_, rfl, rfl, rfl, rfl, rfl, rfl, rfl, rfl⟩
  simp [statusBody, status_info_for, status_map, fallback_status,
    List.lookup, b1, b2, b3, b4, b5, b6]

/-- Witness for C9: the extraction worker's `ai_analysis_complete` value
is not in the table, hence falls back to the generic row. -/
theorem C9_witness :
    statusBody "d1" (some "ai_analysis_complete") =
      ⟨"d1", "unknown", "Processing...", 50⟩ :=
  (C9_fixed_table_with_generic_fallback "d1" "ai_analysis_complete"
    (by decide)).1

end DocStatus

/-- C10: divergence of the two documentId derivations on a key produced
by the upload initiator. The ingestion trigger recovers the full UUID —
the documentId under which the DocumentRecord was created — while the
extraction worker's `update_document_metadata` keeps only the text before
the first hyphen, so the two components address different DocumentRecord
keys. -/
theorem C10_document_id_divergence :
    Ingest.extract_document_id_from_s3_key
      (Upload.upload_s3_key (chars "u1") (chars "iep")
        (chars "123e4567-e89b-12d3-a456-426614174000") (chars "report.pdf")) =
      chars "123e4567-e89b-12d3-a456-426614174000" ∧
    Analysis.analysis_document_id
      (Upload.upload_s3_key (chars "u1") (chars "iep")
        (chars "123e4567-e89b-12d3-a456-426614174000") (chars "report.pdf")) =
      chars "123e4567" ∧
    Analysis.analysis_user_id
      (Upload.upload_s3_key (chars "u1") (chars "iep")
        (chars "123e4567-e89b-12d3-a456-426614174000") (chars "report.pdf")) =
      chars "u1" ∧
    chars "123e4567" ≠ chars "123e4567-e89b-12d3-a456-426614174000" := by
  refine ⟨?_, ?_, ?_, ?_⟩ <;> decide

namespace Analysis

/-- C8 counterexample: the response text `{bad}` contains no parseable
JSON object, yet the stored error marker is `"Invalid JSON"`, not the
claimed `"No JSON found"` (the sidecar is still written, with the raw
response and confidence 0.50). -/
theorem C8_counterexample :
    containsJsonObject (chars "{bad}") = false ∧
    parseClaudeResponse (chars "{bad}") =
      .obj [(chars "raw_response", .str (chars "{bad}")),
            (chars "error", .str (chars "Invalid JSON"))] ∧
    chars "Invalid JSON" ≠ chars "No JSON found" ∧
    (runAnalysisTail (chars "{bad}") "other" 0 "model").writtenExtracted =
      some ⟨0, "model", (50 : ℚ)/100, "other",
            parseClaudeResponse (chars "{bad}")⟩ := by
  refine ⟨by decide, by rfl, by decide, by rfl⟩

/-- C8 as amended: when the response text has no `{`…`}` candidate region
the extracted data is `{raw_response, error: "No JSON found"}`; when a
candidate region exists but fails to parse it is
`{raw_response, error: "Invalid JSON"}`; when it parses, the parsed
object. In every case the run does not fail: the extracted sidecar is
written with this data and status 200 is returned, and the stored
confidence is 0.50 exactly when the extracted data carries an `error`
key, 0.85 otherwise. -/
theorem C8_amended_degraded_extraction (text : List Char)
    (dtype model_id : String) (now : Nat) :
    (candidate_region text = none →
      parseClaudeResponse text =
        .obj [(chars "raw_response", .str text),
              (chars "error", .str (chars "No JSON found"))]) ∧
    (∀ r, candidate_region text = some r → jsonLoads r = none →
      parseClaudeResponse text =
        .obj [(chars "raw_response", .str text),
              (chars "error", .str (chars "Invalid JSON"))]) ∧
    (∀ r j, candidate_region text = some r → jsonLoads r = some j →
      parseClaudeResponse text = j) ∧
    (runAnalysisTail text dtype now model_id).writtenExtracted =
      some ⟨now, model_id,
        (if hasErrorKey (parseClaudeResponse text) then (50 : ℚ)/100
         else (85 : ℚ)/100),
        dtype, parseClaudeResponse text⟩ ∧
    (runAnalysisTail text dtype now model_id).statusCode = 200 ∧
    ((runAnalysisTail text dtype now model_id).writtenExtracted.map
        (fun sc => sc.confidence) = some ((50 : ℚ)/100) ↔
      hasErrorKey (parseClaudeResponse text) = true) := by
  refine ⟨?_, ?_, ?_, rfl, rfl, ?_⟩
  · intro h
    simp [parseClaudeResponse, h]
  · intro r h1 h2
    simp [parseClaudeResponse, h1, h2]
  · intro r j h1 h2
    simp [parseClaudeResponse, h1, h2]
  · by_cases he : hasErrorKey (parseClaudeResponse text)
    · simp [runAnalysisTail, he]
    · simp [runAnalysisTail, he]
      norm_num

/-- Witness for the amended C8: a brace-free response text gets the
`"No JSON found"` marker and the run still returns 200. -/
theorem C8_amended_witness :
    parseClaudeResponse (chars "no json here") =
      .obj [(chars "raw_response", .str (chars "no json here")),
            (chars "error", .str (chars "No JSON found"))] ∧
    (runAnalysisTail (chars "no json here") "other" 7 "m").statusCode = 200 :=
  ⟨(C8_amended_degraded_extraction (chars "no json here") "other" "m" 7).1 rfl,
   (C8_amended_degraded_extraction (chars "no json here") "other" "m" 7).2.2.2.2.1⟩

end Analysis
